import Mathlib

/-!
Verification development for the light-parser combinator library.

This file gives a shallow embedding of the token stream, the error/recovery
model and the structural and behavioral parser combinators of the library
(compile_time_parser.h, token_stream.h, pkuyo/base_parser.h,
pkuyo/error_handler.h, traits.h), together with theorems about the claimed
behavior of the combinators.

Modelling conventions:
  - a parser node is its pair of operations (peek, parse); parse receives the
    stream, the global state and the local state (all passed by reference in
    the original, hence returned updated here) and yields either a thrown
    parser exception or an optional result;
  - the stream models container_stream / basic_string_stream: a token list
    with a cursor, a printable-value function and a stream name;
  - the reporting configuration of each combinator (parser_name, no_error,
    custom handler) is an explicit NodeMeta argument.
-/

namespace LightParser

/-- Structured parse exception mirroring parser_exception in
pkuyo/error_handler.h: the constructor takes (error_part, parser_name,
position, stream_name), stores them in the homonymous fields, and builds the
what() message with the format string
"parser exception in token {}. At parser:{}, pos:{}. Stream: {}" applied to
(parser_name, error_part, position, stream_name) in that order. -/
structure PExn where
  error_part : String
  parser_name : String
  position : String
  stream_name : String
  what : String
  deriving DecidableEq, Repr

/-- Constructor of parser_exception: field assignment plus the formatted
what() message (std::format replaced by string concatenation). -/
def pexnMk (error_part parser_name position stream_name : String) : PExn :=
  { error_part := error_part
    parser_name := parser_name
    position := position
    stream_name := stream_name
    what := "parser exception in token " ++ parser_name ++ ". At parser:" ++
      error_part ++ ", pos:" ++ position ++ ". Stream: " ++ stream_name }

/-- Token stream over a token list, modelling container_stream /
basic_string_stream of token_stream.h: a source container, a cursor,
a printable-value function (value_func, defaulting to "TOK") and a name. -/
structure Stream (α : Type) where
  source : List α
  position : Nat
  name : String := ""
  valueFn : α → String := fun _ => "TOK"

/-- Get reads the token under the cursor and advances; past the end it
yields a default-constructed token and does not advance
(container_stream::get_impl). -/
def Stream.Get [Inhabited α] (s : Stream α) : α × Stream α :=
  if s.position < s.source.length then
    (s.source.getD s.position default, { s with position := s.position + 1 })
  else (default, s)

/-- Peek reads at offset k without mutating (peek_impl). -/
def Stream.Peek [Inhabited α] (s : Stream α) (k : Nat) : α :=
  s.source.getD (s.position + k) default

/-- Eof(k) holds when the cursor plus lookahead is past the end (eof_impl). -/
def Stream.Eof (s : Stream α) (k : Nat) : Bool :=
  decide (s.source.length ≤ s.position + k)

/-- Seek advances the cursor without reading (seek_impl). -/
def Stream.Seek (s : Stream α) (n : Nat) : Stream α :=
  { s with position := s.position + n }

/-- Printable value of the current token: "EOF" at end of stream, otherwise
the value function of the stream on the current token (base_token_stream::Value). -/
def Stream.Value [Inhabited α] (s : Stream α) : String :=
  if s.Eof 0 then "EOF" else s.valueFn (s.Peek 0)

/-- Printable position (container_stream::pos_impl). -/
def Stream.Pos (s : Stream α) : String :=
  "index: " ++ toString s.position

/-- Modelled from the spec: token_stream.h under src lacks the Save operation
that the backtracking choice combinator calls; per the spec the combinator
"saves stream position before each attempt", so Save reads the cursor. -/
def Stream.Save (s : Stream α) : Nat :=
  s.position

/-- Modelled from the spec: token_stream.h under src lacks the Restore
operation that the backtracking choice combinator calls; per the spec the
combinator "restores position", so Restore writes the saved cursor back. -/
def Stream.Restore (s : Stream α) (saved : Nat) : Stream α :=
  { s with position := saved }

/-- Signature of an error handler (parser_error_handler::error_handler_t):
it receives the name of the failing parser, the offending token (none at EOF), the
printable token value, the printable position and the stream name, and either
returns or throws a parser exception. -/
def Handler (α : Type) : Type :=
  String → Option α → String → String → String → Except PExn Unit

/-- The process-wide default error handler for a token type
(pkuyo/error_handler.h): it throws
parser_exception(parser.Name(), token_value, token_pos, stream_name). -/
def defaultErrorHandler (parserName : String) (_tok : Option α)
    (tokenValue tokenPos streamName : String) : Except PExn Unit :=
  .error (pexnMk parserName tokenValue tokenPos streamName)

/-- Per-node reporting configuration carried by _abstract_parser: the node
name (parser_name), the no_error flag and the optional custom handler. -/
structure NodeMeta (α : Type) where
  name : String := ""
  noError : Bool := false
  handler : Option (Handler α) := none

/-- Error/Recovery hook (_abstract_parser::error_handle_recovery): a no-op
under no_error, otherwise the custom handler of the node if set, else the global
default handler, applied to the error context built from the stream. -/
def errorHandleRecovery [Inhabited α] (node : NodeMeta α) (s : Stream α) :
    Except PExn Unit :=
  if node.noError then .ok ()
  else
    match node.handler with
    | none => defaultErrorHandler node.name
        (if s.Eof 0 then none else some (s.Peek 0)) s.Value s.Pos s.name
    | some h => h node.name
        (if s.Eof 0 then none else some (s.Peek 0)) s.Value s.Pos s.name

/-- The common failure epilogue of parse_impl: invoke the hook, then (unless
it threw) return the empty result. -/
def recoverThen [Inhabited α] (node : NodeMeta α) (s : Stream α) :
    Except PExn (Option ρ) :=
  match errorHandleRecovery node s with
  | .ok _ => .ok none
  | .error e => .error e

/-- Outcome of parse_impl: a thrown exception or an optional result, with the
by-reference stream, global state and local state returned updated. -/
abbrev PResult (α γ σ ρ : Type) : Type :=
  Except PExn (Option ρ) × Stream α × γ × σ

/-- A parser node is its Peek and Parse operations (base_parser). Peek is
side-effect-free; Parse threads stream, global state and local state. -/
structure Parser (α γ σ ρ : Type) where
  peek : Stream α → Bool
  parse : Stream α → γ → σ → PResult α γ σ ρ

/-- Universe of parse result values for the sequencing algebra: nullptr_t
(unit), a plain value (atom), or a std::tuple of component values. -/
inductive RVal (β : Type) where
  | null : RVal β
  | atom (v : β) : RVal β
  | tup (vs : List (RVal β)) : RVal β

/-- Value-level combination performed by parser_then::parse_impl
(compile_time_parser.h lines 457-471): a nullptr operand yields the other
operand; two tuples are concatenated (std::tuple_cat); a tuple on the left
absorbs a plain right value; otherwise std::make_tuple forms a pair of the
two operands as they are. -/
def thenCombine : RVal β → RVal β → RVal β
  | .null, r => r
  | l, .null => l
  | .tup ls, .tup rs => .tup (ls ++ rs)
  | .tup ls, .atom v => .tup (ls ++ [.atom v])
  | .atom a, r => .tup [.atom a, r]

/-- Shapes of result types: nullptr_t, a plain (non-tuple) type, or a
std::tuple of component shapes. -/
inductive RTy where
  | null : RTy
  | atom : RTy
  | tup (ts : List RTy) : RTy

mutual

/-- Shape of a result value. -/
def rvalTy : RVal β → RTy
  | .null => .null
  | .atom _ => .atom
  | .tup vs => .tup (rvalTyList vs)

/-- Shapes of a list of result values. -/
def rvalTyList : List (RVal β) → List RTy
  | [] => []
  | v :: vs => rvalTy v :: rvalTyList vs

end

/-- Whether a result-type shape is nullptr_t. -/
def RTy.isNull : RTy → Bool
  | .null => true
  | _ => false

/-- The component list a shape contributes to tuple_cat: a tuple contributes
its components, any other type contributes itself (traits.h lines 193-196). -/
def rtyAsTup : RTy → List RTy
  | .tup ts => ts
  | t => [t]

/-- then_result_t of traits.h lines 193-196: concatenate the component lists
of the two operands, drop nullptr_t components (filter_nullptr), and unwrap a
singleton (filter_single); an empty list collapses to nullptr_t. -/
def thenResultTy (l r : RTy) : RTy :=
  match (rtyAsTup l ++ rtyAsTup r).filter (fun t => !t.isNull) with
  | [] => .null
  | [t] => t
  | ts => .tup ts

/-- Lookahead of parser_check / parser_single: not at EOF and the current
token equals the comparison value. -/
def checkPeek [Inhabited α] [DecidableEq α] (cmp : α) (s : Stream α) : Bool :=
  !(s.Eof 0) && decide (s.Peek 0 = cmp)

/-- parser_check: consumes one token iff it equals the comparison value and
yields nullptr; on mismatch it runs the recovery hook and yields the empty
result. -/
def checkP [Inhabited α] [DecidableEq α] (cmp : α) (node : NodeMeta α) :
    Parser α γ σ (RVal β) where
  peek := fun s => checkPeek cmp s
  parse := fun s g l =>
    if checkPeek cmp s then (.ok (some .null), (s.Get).2, g, l)
    else (recoverThen node s, s, g, l)

/-- parser_single (with the default SingleValue constructor, which returns
the consumed token itself): like parser_check but yields the token as a
plain value. -/
def singleP [Inhabited α] [DecidableEq α] (cmp : α) (node : NodeMeta α) :
    Parser α γ σ (RVal α) where
  peek := fun s => checkPeek cmp s
  parse := fun s g l =>
    if checkPeek cmp s then
      (.ok (some (.atom (s.Get).1)), (s.Get).2, g, l)
    else (recoverThen node s, s, g, l)

/-- Lookahead of parser_until: false when at EOF or already at the
comparison value. -/
def untilPeek [Inhabited α] [DecidableEq α] (cmp : α) (s : Stream α) : Bool :=
  !(s.Eof 0 || decide (s.Peek 0 = cmp))

/-- Accumulation loop of parser_until::parse_impl: while not at EOF and the
current token differs from the comparison value, push stream.Get(). -/
def untilLoop [Inhabited α] [DecidableEq α] (cmp : α) (s : Stream α) :
    List α × Stream α :=
  if h : !(s.Eof 0) && !(decide (s.Peek 0 = cmp)) then
    have hlt : s.position < s.source.length := by
      simp only [Stream.Eof, Bool.and_eq_true, Bool.not_eq_true',
        decide_eq_false_iff_not, Nat.add_zero] at h
      omega
    let t := (s.Get).1
    let rest := untilLoop cmp (s.Get).2
    (t :: rest.1, rest.2)
  else ([], s)
termination_by s.source.length - s.position
decreasing_by
  simp only [Stream.Get, hlt, if_pos]
  omega

/-- parser_until: if the lookahead fails, returns the empty result directly
(without running the recovery hook); otherwise accumulates tokens up to but
excluding the comparison value. -/
def untilP [Inhabited α] [DecidableEq α] (cmp : α) (_node : NodeMeta α) :
    Parser α γ σ (List α) where
  peek := fun s => untilPeek cmp s
  parse := fun s g l =>
    if untilPeek cmp s then
      ((.ok (some (untilLoop cmp s).1)), (untilLoop cmp s).2, g, l)
    else (.ok none, s, g, l)

/-- parser_then: run the left child, then the right child; either child
failing runs the recovery hook of the combinator and fails without restoring the
stream; on success the results are combined by the sequencing value rule.
Peek delegates to the left child only. -/
def thenP [Inhabited α] (node : NodeMeta α)
    (a b : Parser α γ σ (RVal β)) : Parser α γ σ (RVal β) where
  peek := a.peek
  parse := fun s g l =>
    match a.parse s g l with
    | (.error e, s', g', l') => (.error e, s', g', l')
    | (.ok none, s', g', l') => (recoverThen node s', s', g', l')
    | (.ok (some va), s1, g1, l1) =>
      match b.parse s1 g1 l1 with
      | (.error e, s', g', l') => (.error e, s', g', l')
      | (.ok none, s2, g2, l2) => (recoverThen node s2, s2, g2, l2)
      | (.ok (some vb), s2, g2, l2) =>
        (.ok (some (thenCombine va vb)), s2, g2, l2)

/-- parser_or (default, non-backtracking), specialized to children of one
result type (the identical-types-collapse case of the alternation algebra):
if neither child peeks true, recover and fail; otherwise dispatch to the
first child whose peek is true; if the parse of the dispatched child fails,
recover and fail without restoring the stream and without trying the other
child. -/
def orDefaultP [Inhabited α] (node : NodeMeta α)
    (a b : Parser α γ σ ρ) : Parser α γ σ ρ where
  peek := fun s => a.peek s || b.peek s
  parse := fun s g l =>
    if !(a.peek s || b.peek s) then (recoverThen node s, s, g, l)
    else if a.peek s then
      match a.parse s g l with
      | (.error e, s', g', l') => (.error e, s', g', l')
      | (.ok none, s', g', l') => (recoverThen node s', s', g', l')
      | (.ok (some v), s', g', l') => (.ok (some v), s', g', l')
    else
      match b.parse s g l with
      | (.error e, s', g', l') => (.error e, s', g', l')
      | (.ok none, s', g', l') => (recoverThen node s', s', g', l')
      | (.ok (some v), s', g', l') => (.ok (some v), s', g', l')

/-- Second attempt of the backtracking parser_or (the code after the first
branch in compile_time_parser.h lines 572-579): if the second child peeks
true, parse it, restoring the saved position on failure; if control reaches
the end of parse_impl without a taken return (the original function body has
no final return statement), the empty result is yielded with the stream as
it stands. -/
def orBackSecond (b : Parser α γ σ ρ) (saved : Nat) (s : Stream α)
    (g : γ) (l : σ) : PResult α γ σ ρ :=
  if b.peek s then
    match b.parse s g l with
    | (.error e, s', g', l') => (.error e, s', g', l')
    | (.ok none, s', g', l') => (.ok none, s'.Restore saved, g', l')
    | (.ok (some v), s', g', l') => (.ok (some v), s', g', l')
  else (.ok none, s, g, l)

/-- parser_or with back-tracking (compile_time_parser.h lines 552-601),
specialized to children of one result type: the entry position is saved;
the first child is attempted if it peeks true, the stream being restored to
the saved position on its failure before the second child is attempted. -/
def orBackTrackP (a b : Parser α γ σ ρ) : Parser α γ σ ρ where
  peek := fun s => a.peek s || b.peek s
  parse := fun s g l =>
    if a.peek s then
      match a.parse s g l with
      | (.error e, s', g', l') => (.error e, s', g', l')
      | (.ok none, s', g', l') => orBackSecond b s.Save (s'.Restore s.Save) g' l'
      | (.ok (some v), s', g', l') => (.ok (some v), s', g', l')
    else orBackSecond b s.Save s g l

/-- Loop of parser_many::parse_impl, made total by an explicit fuel
parameter: while not at EOF and the child peeks true, parse the child,
pushing each result; a child failure runs the recovery hook of the combinator and
stops the loop keeping the accumulated partial results; the loop always
ends by returning the accumulated container. none means the fuel ran out
before the loop finished (the original loop is unbounded). -/
def manyLoop [Inhabited α] (c : Parser α γ σ ρ) (node : NodeMeta α) :
    Nat → Stream α → γ → σ → List ρ → Option (PResult α γ σ (List ρ))
  | 0, _, _, _, _ => none
  | n + 1, s, g, l, acc =>
    if !(s.Eof 0) && c.peek s then
      match c.parse s g l with
      | (.error e, s', g', l') => some (.error e, s', g', l')
      | (.ok none, s', g', l') =>
        match errorHandleRecovery node s' with
        | .ok _ => some (.ok (some acc), s', g', l')
        | .error e => some (.error e, s', g', l')
      | (.ok (some v), s', g', l') => manyLoop c node n s' g' l' (acc ++ [v])
    else some (.ok (some acc), s, g, l)

/-- parser_optional: peek is always true; if the child peeks true it is run
(its failure running the recovery hook and failing the combinator), else the
absent value is yielded without consuming. -/
def optionalP [Inhabited α] (c : Parser α γ σ ρ) (node : NodeMeta α) :
    Parser α γ σ (Option ρ) where
  peek := fun _ => true
  parse := fun s g l =>
    if c.peek s then
      match c.parse s g l with
      | (.error e, s', g', l') => (.error e, s', g', l')
      | (.ok none, s', g', l') => (recoverThen node s', s', g', l')
      | (.ok (some v), s', g', l') => (.ok (some (some v)), s', g', l')
    else (.ok (some none), s, g, l)

/-- parser_action (the branch receiving both global and local state): run
the child; on success apply the side-effecting action to the result and the
two states and return the original result; on failure run the recovery hook
and fail. -/
def actionP [Inhabited α] (c : Parser α γ σ ρ) (f : ρ → γ → σ → γ × σ)
    (node : NodeMeta α) : Parser α γ σ ρ where
  peek := c.peek
  parse := fun s g l =>
    match c.parse s g l with
    | (.error e, s', g', l') => (.error e, s', g', l')
    | (.ok none, s', g', l') => (recoverThen node s', s', g', l')
    | (.ok (some v), s', g', l') =>
      match f v g' l' with
      | (g2, l2) => (.ok (some v), s', g2, l2)

/-- state_parser (WithState): parse_impl forwards to the child with
factory() as local state, where factory() returns a function-local static
cell shared by every entry (and by every node of the same instantiated
type); the cell is reassigned to a default-constructed value only by
reset_impl. The static cell is threaded through the (otherwise unused)
local-state slot: the surrounding tree passes it along unchanged, exactly
as static storage persists between entries. -/
def withStateNode (c : Parser α γ τ ρ) : Parser α γ τ ρ where
  peek := c.peek
  parse := fun s g cell => c.parse s g cell

/-- Modelled from the spec: the WithState of §4.5 "allocates a fresh T
scoped to one call, threading it as Local State to the child subtree only",
the instance being discarded on return — each entry runs the child on a
default-constructed value and leaves the outer cell untouched. Stated for
comparison with withStateNode, the translation of state_parser. -/
def withStateFreshNode [Inhabited τ] (c : Parser α γ τ ρ) :
    Parser α γ τ ρ where
  peek := c.peek
  parse := fun s g cell =>
    match c.parse s g default with
    | (r, s', g', _) => (r, s', g', cell)

/-- Top-level Parse(stream, global) of base_parser: Reset() runs first,
which reaches state_parser::reset_impl and reassigns the static cell to a
default-constructed value, so parsing starts with the default cell. -/
def stateTopParse [Inhabited τ] (p : Parser α γ τ ρ) (s : Stream α)
    (g : γ) : PResult α γ τ ρ :=
  p.parse s g default

/-- try_catch_parser: if the peek of the guarded parser is false, run the
recovery parser directly; otherwise run the guarded parser, and only when it
throws a parser exception call on_error and run the recovery parser on the
stream as the exception left it; a returned result, empty or not, is passed
through unchanged. -/
def tryCatchP (p : Parser α γ σ ρ) (onError : PExn → γ → γ)
    (r : Parser α γ σ ρ) : Parser α γ σ ρ where
  peek := p.peek
  parse := fun s g l =>
    if p.peek s then
      match p.parse s g l with
      | (.error e, s', g', l') => r.parse s' (onError e g') l'
      | (.ok res, s', g', l') => (.ok res, s', g', l')
    else r.parse s g l

/-- Node with the default reporting configuration: empty name, reporting
enabled, no custom handler (so the global default, throwing, handler runs). -/
def nodeD : NodeMeta α := {}

/-- Node with reporting disabled via NoError. -/
def nodeNE : NodeMeta α := { noError := true }

/-- Concrete one-token stream holding 'z'. -/
def strZ : Stream Char := { source := ['z'], position := 0 }

/-- Concrete two-token stream holding "xz". -/
def strXZ : Stream Char := { source := ['x', 'z'], position := 0 }

/-- Concrete one-token stream holding 'a'. -/
def strA : Stream Char := { source := ['a'], position := 0 }

/-- When the second attempt of the backtracking choice starts at the saved
position and yields the empty result, the stream it leaves behind also sits
at the saved position. -/
theorem orBackSecond_none_pos {α γ σ ρ : Type} (b : Parser α γ σ ρ)
    (saved : Nat) (s : Stream α) (g : γ) (l : σ) (s' : Stream α) (g' : γ)
    (l' : σ) (hs : s.position = saved)
    (h : orBackSecond b saved s g l = (.ok none, s', g', l')) :
    s'.position = saved := by
  unfold orBackSecond at h
  split at h
  · split at h
    · simp_all
    · simp only [Prod.mk.injEq] at h
      obtain ⟨-, h2, -, -⟩ := h
      subst h2
      rfl
    · simp_all
  · simp only [Prod.mk.injEq] at h
    obtain ⟨-, h2, -, -⟩ := h
    subst h2
    exact hs

/-- C1: if Or_BackTrack(a,b).Parse exhausts both branches and returns the
empty result, the stream position on return equals the position on entry:
the combinator saves the entry position and restores it before the second
attempt and before returning failure. -/
theorem c1_backtrack_restores_position {α γ σ ρ : Type}
    (a b : Parser α γ σ ρ) (s : Stream α) (g : γ) (l : σ) (s' : Stream α)
    (g' : γ) (l' : σ)
    (h : (orBackTrackP a b).parse s g l = (.ok none, s', g', l')) :
    s'.position = s.position := by
  simp only [orBackTrackP] at h
  by_cases hpk : a.peek s
  · rw [if_pos hpk] at h
    rcases hpa : a.parse s g l with ⟨r, s1, g1, l1⟩
    rw [hpa] at h
    rcases r with e | o
    · simp at h
    · rcases o with - | v
      · exact orBackSecond_none_pos b s.Save (s1.Restore s.Save) g1 l1
          s' g' l' rfl h
      · simp at h
  · rw [if_neg hpk] at h
    exact orBackSecond_none_pos b s.Save s g l s' g' l' rfl h

/-- Witness for C1 at a concrete input: both branches fail on stream "z"
(their lookaheads expect 'x' and 'y'), the combinator returns the empty
result and the position is unchanged. -/
theorem c1_witness :
    ((orBackTrackP (checkP 'x' nodeD : Parser Char Nat Nat (RVal Unit))
      (checkP 'y' nodeD)).parse strZ 0 0 = (.ok none, strZ, 0, 0)) ∧
    strZ.position = strZ.position :=
  ⟨rfl, c1_backtrack_restores_position
    (checkP 'x' nodeD : Parser Char Nat Nat (RVal Unit)) (checkP 'y' nodeD)
    strZ 0 0 strZ 0 0 rfl⟩

/-- C6: whenever the first child of the default ordered choice peeks true
(and in particular when both children do), Parse dispatches to the first
child: the outcome does not depend on the second child at all, and a
successful first parse is returned as the result of the combinator itself. -/
theorem c6_or_dispatches_to_first {α γ σ ρ : Type} [Inhabited α]
    (node : NodeMeta α) (a b : Parser α γ σ ρ) (s : Stream α) (g : γ)
    (l : σ) (ha : a.peek s = true) (_hb : b.peek s = true) :
    (∀ b' : Parser α γ σ ρ,
      (orDefaultP node a b).parse s g l = (orDefaultP node a b').parse s g l) ∧
    (∀ v s' g' l', a.parse s g l = (.ok (some v), s', g', l') →
      (orDefaultP node a b).parse s g l = (.ok (some v), s', g', l')) := by
  constructor
  · intro b'
    simp [orDefaultP, ha]
  · intro v s' g' l' hp
    simp [orDefaultP, ha, hp]

/-- Witness for C6 at a concrete input: both children peek true on "a", and
the choice returns the successful result of the first child. -/
theorem c6_witness :
    ((checkP 'a' nodeD : Parser Char Nat Nat (RVal Unit)).peek strA = true) ∧
    ((checkP 'a' nodeD : Parser Char Nat Nat (RVal Unit)).peek strA = true) ∧
    ((orDefaultP nodeD (checkP 'a' nodeD)
        (checkP 'a' nodeD : Parser Char Nat Nat (RVal Unit))).parse strA 0 0 =
      (.ok (some .null), { strA with position := 1 }, 0, 0)) :=
  ⟨rfl, rfl,
    (c6_or_dispatches_to_first nodeD _ _ strA 0 0 rfl rfl).2 .null
      { strA with position := 1 } 0 0 rfl⟩

/-- C7: when the default ordered choice dispatches to the first child (its
peek is true) and the Parse of that child fails with the empty result, the
combinator runs its own recovery hook on the stream exactly as the child
left it and fails, with no restoration of consumed tokens and no attempt of
the second child (the outcome does not mention the second child). -/
theorem c7_or_no_retry_no_restore {α γ σ ρ : Type} [Inhabited α]
    (node : NodeMeta α) (a b : Parser α γ σ ρ) (s : Stream α) (g : γ)
    (l : σ) (s' : Stream α) (g' : γ) (l' : σ) (ha : a.peek s = true)
    (hfail : a.parse s g l = (.ok none, s', g', l')) :
    (orDefaultP node a b).parse s g l = (recoverThen node s', s', g', l') := by
  simp [orDefaultP, ha, hfail]

/-- Witness for C7 at a concrete input: on "xz" the first child (sequence
"x" then "y") peeks true, consumes 'x' and fails; the choice fails with the
stream still past the consumed 'x'. -/
theorem c7_witness :
    ((thenP nodeNE (checkP 'x' nodeNE)
        (checkP 'y' nodeNE) : Parser Char Nat Nat (RVal Unit)).peek strXZ
      = true) ∧
    ((thenP nodeNE (checkP 'x' nodeNE)
        (checkP 'y' nodeNE) : Parser Char Nat Nat (RVal Unit)).parse strXZ 0 0
      = (.ok none, { strXZ with position := 1 }, 0, 0)) ∧
    ((orDefaultP nodeD
        (thenP nodeNE (checkP 'x' nodeNE) (checkP 'y' nodeNE))
        (checkP 'z' nodeD : Parser Char Nat Nat (RVal Unit))).parse strXZ 0 0
      = (recoverThen nodeD { strXZ with position := 1 },
          { strXZ with position := 1 }, 0, 0)) :=
  ⟨rfl, rfl,
    c7_or_no_retry_no_restore nodeD _ _ strXZ 0 0
      { strXZ with position := 1 } 0 0 rfl rfl⟩

/-- C8: when either child of Then fails — the first child directly, or the
second child after the first succeeded — the combinator runs its recovery
hook on the stream exactly as the failing child left it and fails, with no
restoration: the consumption of the first child is kept in the resulting stream
position. -/
theorem c8_then_keeps_consumption {α γ σ β : Type} [Inhabited α]
    (node : NodeMeta α) (a b : Parser α γ σ (RVal β)) (s : Stream α)
    (g : γ) (l : σ) :
    (∀ s1 g1 l1, a.parse s g l = (.ok none, s1, g1, l1) →
      (thenP node a b).parse s g l = (recoverThen node s1, s1, g1, l1)) ∧
    (∀ va s1 g1 l1 s2 g2 l2, a.parse s g l = (.ok (some va), s1, g1, l1) →
      b.parse s1 g1 l1 = (.ok none, s2, g2, l2) →
      (thenP node a b).parse s g l = (recoverThen node s2, s2, g2, l2)) := by
  constructor
  · intro s1 g1 l1 h1
    simp [thenP, h1]
  · intro va s1 g1 l1 s2 g2 l2 h1 h2
    simp [thenP, h1, h2]

/-- Witness for C8 at a concrete input: on "xz" the first child consumes
'x' and succeeds, the second child (expecting 'y') fails without consuming,
and Then fails with the stream still at position 1. -/
theorem c8_witness :
    ((checkP 'x' nodeNE : Parser Char Nat Nat (RVal Unit)).parse strXZ 0 0 =
      (.ok (some .null), { strXZ with position := 1 }, 0, 0)) ∧
    ((checkP 'y' nodeNE : Parser Char Nat Nat (RVal Unit)).parse
        { strXZ with position := 1 } 0 0 =
      (.ok none, { strXZ with position := 1 }, 0, 0)) ∧
    ((thenP nodeD (checkP 'x' nodeNE)
        (checkP 'y' nodeNE : Parser Char Nat Nat (RVal Unit))).parse
        strXZ 0 0 =
      (recoverThen nodeD { strXZ with position := 1 },
        { strXZ with position := 1 }, 0, 0)) :=
  ⟨rfl, rfl,
    (c8_then_keeps_consumption nodeD _ _ strXZ 0 0).2 .null
      { strXZ with position := 1 } 0 0 { strXZ with position := 1 } 0 0
      rfl rfl⟩

/-- C10: the global default error handler throws the exception built from
(parser.Name(), token_value, token_pos, stream_name), so the field named
error_part holds the name of the failing parser and the field named parser_name
holds the printable value of the token — the first two constructor arguments
swapped relative to the field names — while the what() message shows the
token value after "in token" and the parser name after "At parser:". -/
theorem c10_default_handler_swapped_fields {α : Type} (pn : String)
    (tok : Option α) (tv tp sn : String) :
    defaultErrorHandler pn tok tv tp sn = .error
      { error_part := pn, parser_name := tv, position := tp,
        stream_name := sn,
        what := "parser exception in token " ++ tv ++ ". At parser:" ++ pn ++
          ", pos:" ++ tp ++ ". Stream: " ++ sn } :=
  rfl

/-- Concrete three-token stream holding "xyz". -/
def strXYZ : Stream Char := { source := ['x', 'y', 'z'], position := 0 }

/-- C2 (evaluation at the failing input): on "xyz", the left-nested sequence
(x>>y)>>z yields the flat tuple ('x','y','z'), but the right-nested sequence
x>>(y>>z) yields the nested pair ('x',('y','z')) by the make_tuple branch of
parser_then::parse_impl, which differs from the flat tuple; moreover the
shape of that nested value disagrees with the declared result type
then_result_t (traits.h lines 193-196), which flattens the chain — so the
value construction does not typecheck against its declared type in the
original. -/
theorem c2_then_assoc_failing_input :
    (((thenP nodeD (thenP nodeD (singleP 'x' nodeD) (singleP 'y' nodeD))
        (singleP 'z' nodeD) : Parser Char Nat Nat (RVal Char)).parse
        strXYZ 0 0).1 =
      .ok (some (.tup [.atom 'x', .atom 'y', .atom 'z']))) ∧
    (((thenP nodeD (singleP 'x' nodeD) (thenP nodeD (singleP 'y' nodeD)
        (singleP 'z' nodeD)) : Parser Char Nat Nat (RVal Char)).parse
        strXYZ 0 0).1 =
      .ok (some (.tup [.atom 'x', .tup [.atom 'y', .atom 'z']]))) ∧
    ((RVal.tup [.atom 'x', .tup [.atom 'y', .atom 'z']] : RVal Char) ≠
      .tup [.atom 'x', .atom 'y', .atom 'z']) ∧
    (rvalTy (thenCombine (.atom 'x') (.tup [.atom 'y', .atom 'z']) : RVal Char)
      ≠ thenResultTy (rvalTy (.atom 'x' : RVal Char))
        (rvalTy (.tup [.atom 'y', .atom 'z'] : RVal Char))) := by
  refine ⟨rfl, rfl, ?_, ?_⟩
  · simp
  · simp [rvalTy, rvalTyList, thenCombine, thenResultTy, rtyAsTup, RTy.isNull]

/-- Concrete two-token stream holding "YY". -/
def strYY : Stream Char := { source := ['Y', 'Y'], position := 0 }

/-- Child used to observe the local-state cell: it consumes 'Y' and, as a
side effect, records the incoming cell value into the global state
(global := global * 10 + cell) before incrementing the cell. -/
def incC3 : Parser Char Nat Nat (RVal Unit) :=
  actionP (checkP 'Y' nodeNE) (fun _ g cell => (g * 10 + cell, cell + 1))
    nodeNE

/-- C3 counterexample: two successive entries into the WithState node during
one top-level Parse. Under the translated state_parser the second entry
observes cell value 1 left over by the first entry (final global state 1);
under the spec-modelled fresh-per-entry variant both entries observe the
default value 0 (final global state 0). -/
theorem c3_counterexample :
    ((stateTopParse (thenP nodeNE (withStateNode incC3)
        (withStateNode incC3)) strYY 0).2.2.1 = 1) ∧
    ((stateTopParse (thenP nodeNE (withStateFreshNode incC3)
        (withStateFreshNode incC3)) strYY 0).2.2.1 = 0) :=
  ⟨rfl, rfl⟩

/-- C3 amended: the local-state cell of WithState is reset to a
default-constructed value at the start of a top-level Parse (Reset reaches
state_parser::reset_impl), and an entry into the node threads the cell as it
currently stands to the child — it does not allocate a fresh value per
entry, so the cell persists across entries within one parse. -/
theorem c3_withstate_amended {α γ τ ρ : Type} [Inhabited τ] :
    (∀ (c : Parser α γ τ ρ) (s : Stream α) (g : γ),
      stateTopParse (withStateNode c) s g = c.parse s g default) ∧
    (∀ (c : Parser α γ τ ρ) (s : Stream α) (g : γ) (cell : τ),
      (withStateNode c).parse s g cell = c.parse s g cell) :=
  ⟨fun _ _ _ => rfl, fun _ _ _ _ => rfl⟩

/-- C4 counterexample: the guarded parser ("x" then "y") peeks true on "xz",
consumes 'x' and fails with an empty result (its reporting is disabled, so
nothing is thrown); TryCatch passes the empty result through unchanged even
though the recovery parser, run on the stream as the failure left it, would
have succeeded — the recovery result is not returned. -/
theorem c4_counterexample :
    ((tryCatchP (thenP nodeNE (checkP 'x' nodeNE) (checkP 'y' nodeNE))
        (fun _ g => g)
        (checkP 'z' nodeD) : Parser Char Nat Nat (RVal Unit)).parse
        strXZ 0 0 = (.ok none, { strXZ with position := 1 }, 0, 0)) ∧
    ((checkP 'z' nodeD : Parser Char Nat Nat (RVal Unit)).parse
        { strXZ with position := 1 } 0 0 =
      (.ok (some .null), { strXZ with position := 2 }, 0, 0)) :=
  ⟨rfl, rfl⟩

/-- C4 amended: TryCatch runs the recovery parser when the peek of the guarded
peek is false (without calling onError) and when the guarded parser throws a
parser exception (after calling onError, on the stream as the exception left
it); a result returned without throwing — empty or not — is passed through
unchanged, so a plain match failure of the guarded parser does not run the
recovery parser. -/
theorem c4_trycatch_amended {α γ σ ρ : Type} (p r : Parser α γ σ ρ)
    (onE : PExn → γ → γ) (s : Stream α) (g : γ) (l : σ) :
    (p.peek s = false → (tryCatchP p onE r).parse s g l = r.parse s g l) ∧
    (∀ e s' g' l', p.peek s = true →
      p.parse s g l = (.error e, s', g', l') →
      (tryCatchP p onE r).parse s g l = r.parse s' (onE e g') l') ∧
    (∀ res s' g' l', p.peek s = true →
      p.parse s g l = (.ok res, s', g', l') →
      (tryCatchP p onE r).parse s g l = (.ok res, s', g', l')) := by
  refine ⟨fun h => ?_, fun e s' g' l' h hp => ?_, fun res s' g' l' h hp => ?_⟩
  · simp [tryCatchP, h]
  · simp [tryCatchP, h, hp]
  · simp [tryCatchP, h, hp]

/-- Witness for C4 amended at concrete inputs: a peek-false guarded parser
makes TryCatch run the recovery directly, and a successfully returning
guarded parser has its result passed through. -/
theorem c4_witness :
    ((checkP 'x' nodeD : Parser Char Nat Nat (RVal Unit)).peek strZ
      = false) ∧
    ((tryCatchP (checkP 'x' nodeD) (fun _ g => g)
        (checkP 'z' nodeD) : Parser Char Nat Nat (RVal Unit)).parse
        strZ 0 0 =
      (checkP 'z' nodeD : Parser Char Nat Nat (RVal Unit)).parse strZ 0 0) ∧
    ((tryCatchP (checkP 'z' nodeD) (fun _ g => g)
        (checkP 'x' nodeD) : Parser Char Nat Nat (RVal Unit)).parse
        strZ 0 0 = (.ok (some .null), { strZ with position := 1 }, 0, 0)) :=
  ⟨rfl,
    (c4_trycatch_amended (checkP 'x' nodeD) (checkP 'z' nodeD)
      (fun _ g => g) strZ 0 0).1 rfl,
    (c4_trycatch_amended (checkP 'z' nodeD) (checkP 'x' nodeD)
      (fun _ g => g) strZ 0 0).2.2 (some .null)
      { strZ with position := 1 } 0 0 rfl rfl⟩

/-- C5 counterexample: Until('z') on the stream sitting at 'z' fails with
the empty result, yet the outcome carries no exception although the configured
hook is the default, throwing one — running the hook on that stream yields
an exception — so the hook was not invoked before the empty result was
returned. -/
theorem c5_counterexample :
    ((untilP 'z' nodeD : Parser Char Nat Nat (List Char)).parse strZ 0 0 =
      (.ok none, strZ, 0, 0)) ∧
    ((recoverThen nodeD strZ : Except PExn (Option (List Char))) ≠
      .ok none) := by
  refine ⟨rfl, ?_⟩
  simp [recoverThen, errorHandleRecovery, nodeD, defaultErrorHandler]

/-- C5 amended: a failing parser node normally invokes the Error/Recovery
hook before returning the empty result — parser_check does: its failing
parse is exactly hook-then-empty — but Until(v) does not: when the stream is
already at v or at EOF its parse returns the empty result directly, without
invoking the hook. -/
theorem c5_hook_amended {α γ σ β : Type} [Inhabited α] [DecidableEq α]
    (cmp : α) (node : NodeMeta α) (s : Stream α) (g : γ) (l : σ) :
    ((checkP cmp node : Parser α γ σ (RVal β)).peek s = false →
      (checkP cmp node : Parser α γ σ (RVal β)).parse s g l =
        (recoverThen node s, s, g, l)) ∧
    ((untilP cmp node : Parser α γ σ (List α)).peek s = false →
      (untilP cmp node).parse s g l = (.ok none, s, g, l)) := by
  constructor
  · intro h
    simp only [checkP] at h ⊢
    simp [h]
  · intro h
    simp only [untilP] at h ⊢
    simp [h]

/-- Witness for C5 amended at concrete inputs: on the stream at 'z', a check
for 'x' fails through the hook, and Until('z') fails without it. -/
theorem c5_witness :
    ((checkP 'x' nodeD : Parser Char Nat Nat (RVal Unit)).peek strZ
      = false) ∧
    ((checkP 'x' nodeD : Parser Char Nat Nat (RVal Unit)).parse strZ 0 0 =
      (recoverThen nodeD strZ, strZ, 0, 0)) ∧
    ((untilP 'z' nodeD : Parser Char Nat Nat (List Char)).peek strZ
      = false) ∧
    ((untilP 'z' nodeD : Parser Char Nat Nat (List Char)).parse strZ 0 0 =
      (.ok none, strZ, 0, 0)) :=
  ⟨rfl, (c5_hook_amended 'x' nodeD strZ 0 0).1 rfl, rfl,
    (@c5_hook_amended Char Nat Nat Unit _ _ 'z' nodeD strZ 0 0).2 rfl⟩

/-- The failure epilogue never yields a present result. -/
theorem recoverThen_ne_some {α ρ : Type} [Inhabited α] (node : NodeMeta α)
    (s : Stream α) (v : ρ) : recoverThen node s ≠ .ok (some v) := by
  unfold recoverThen
  split <;> simp

/-- A successful parser_check consumes exactly one token: the source is kept
and the position strictly increases. -/
theorem checkP_progress {α γ σ β : Type} [Inhabited α] [DecidableEq α]
    (cmp : α) (node : NodeMeta α) (s : Stream α) (g : γ) (l : σ)
    (v : RVal β) (s' : Stream α) (g' : γ) (l' : σ)
    (h : (checkP cmp node).parse s g l = (.ok (some v), s', g', l')) :
    s'.source = s.source ∧ s.position < s'.position := by
  simp only [checkP] at h
  split at h
  case isTrue hpk =>
    simp only [Prod.mk.injEq] at h
    obtain ⟨-, h2, -, -⟩ := h
    have hlt : s.position < s.source.length := by
      simp only [checkPeek, Bool.and_eq_true, Bool.not_eq_true',
        decide_eq_true_eq, Stream.Eof, decide_eq_false_iff_not,
        Nat.add_zero] at hpk
      omega
    subst h2
    simp [Stream.Get, hlt]
  case isFalse =>
    simp only [Prod.mk.injEq] at h
    exact absurd h.1 (recoverThen_ne_some node s v)

/-- A parser_check whose reporting is disabled never throws. -/
theorem checkP_noexn {α γ σ β : Type} [Inhabited α] [DecidableEq α]
    (cmp : α) (s : Stream α) (g : γ) (l : σ) (e : PExn) (s' : Stream α)
    (g' : γ) (l' : σ) :
    (checkP cmp (nodeNE : NodeMeta α) : Parser α γ σ (RVal β)).parse s g l ≠
      (.error e, s', g', l') := by
  intro h
  simp only [checkP] at h
  split at h
  · simp at h
  · simp only [Prod.mk.injEq] at h
    have h1 := h.1
    simp [recoverThen, errorHandleRecovery, nodeNE] at h1

/-- With enough fuel, the Many loop finishes whenever every successful child
parse keeps the source and strictly advances the position, the child never
throws, and the reporting of the combinator itself is disabled; the loop then yields
a present result. -/
theorem manyLoop_finishes {α γ σ ρ : Type} [Inhabited α]
    (c : Parser α γ σ ρ) (node : NodeMeta α)
    (hprog : ∀ (s : Stream α) (g : γ) (l : σ) (v : ρ) s' g' l',
      c.parse s g l = (.ok (some v), s', g', l') →
      s'.source = s.source ∧ s.position < s'.position)
    (hnoexn : ∀ (s : Stream α) (g : γ) (l : σ) e s' g' l',
      c.parse s g l ≠ (.error e, s', g', l'))
    (hne : node.noError = true) :
    ∀ (n : Nat) (s : Stream α) (g : γ) (l : σ) (acc : List ρ),
      s.source.length - s.position < n →
      ∃ vs s' g' l',
        manyLoop c node n s g l acc = some (.ok (some vs), s', g', l') := by
  intro n
  induction n with
  | zero => intro s g l acc h; omega
  | succ n ih =>
    intro s g l acc hm
    simp only [manyLoop]
    split
    case isTrue hc =>
      rcases hp : c.parse s g l with ⟨r, s1, g1, l1⟩
      rcases r with e | o
      · exact absurd hp (hnoexn s g l e s1 g1 l1)
      · rcases o with - | v
        · simp only [errorHandleRecovery, hne, if_pos]
          exact ⟨acc, s1, g1, l1, rfl⟩
        · obtain ⟨hsrc, hpos⟩ := hprog s g l v s1 g1 l1 hp
          have heof : s.position < s.source.length := by
            simp only [Bool.and_eq_true, Bool.not_eq_true', Stream.Eof,
              decide_eq_false_iff_not, Nat.add_zero] at hc
            omega
          have hmeas : s1.source.length - s1.position < n := by
            rw [hsrc]
            omega
          exact ih s1 g1 l1 (acc ++ [v]) hmeas
    case isFalse => exact ⟨acc, s, g, l, rfl⟩

/-- C9 amended: Many(a).Parse terminates and yields a present result
whenever every successful a.Parse keeps the stream source and strictly
advances the position (so repetition makes progress), a.Parse never throws,
and the combinator's reporting is disabled (so a mid-loop child failure
stops the loop keeping partial results instead of throwing): fuel one more
than the remaining token count already suffices. A child that can succeed
without consuming makes the loop run forever. -/
theorem c9_many_terminates_amended {α γ σ ρ : Type} [Inhabited α]
    (c : Parser α γ σ ρ) (node : NodeMeta α)
    (hprog : ∀ (s : Stream α) (g : γ) (l : σ) (v : ρ) s' g' l',
      c.parse s g l = (.ok (some v), s', g', l') →
      s'.source = s.source ∧ s.position < s'.position)
    (hnoexn : ∀ (s : Stream α) (g : γ) (l : σ) e s' g' l',
      c.parse s g l ≠ (.error e, s', g', l'))
    (hne : node.noError = true) (s : Stream α) (g : γ) (l : σ) :
    ∃ vs s' g' l',
      manyLoop c node (s.source.length - s.position + 1) s g l [] =
        some (.ok (some vs), s', g', l') :=
  manyLoop_finishes c node hprog hnoexn hne _ s g l [] (Nat.lt_succ_self _)

/-- Concrete two-token stream holding "aa". -/
def strAA : Stream Char := { source := ['a', 'a'], position := 0 }

/-- Witness for C9 amended at a concrete input: Many over a consuming child
(check for 'a') finishes on "aa" with a present result. -/
theorem c9_witness :
    ∃ vs s' g' l',
      manyLoop (checkP 'a' nodeNE : Parser Char Nat Nat (RVal Unit)) nodeNE
        (strAA.source.length - strAA.position + 1) strAA 0 0 [] =
        some (.ok (some vs), s', g', l') :=
  c9_many_terminates_amended (checkP 'a' nodeNE) nodeNE
    (fun s g l v s' g' l' h => checkP_progress 'a' nodeNE s g l v s' g' l' h)
    (fun s g l e s' g' l' => checkP_noexn 'a' s g l e s' g' l')
    rfl strAA 0 0

/-- One step of the Many loop over Optional(Check 'z') on the stream "a"
returns to the identical loop state: the loop never finishes, for any
fuel. -/
theorem manyLoop_optional_no_finish :
    ∀ (n : Nat) (acc : List (Option (RVal Unit))),
      manyLoop (optionalP (checkP 'z' nodeNE : Parser Char Nat Nat
        (RVal Unit)) nodeNE) nodeNE n strA 0 0 acc = none := by
  intro n
  induction n with
  | zero => intro acc; rfl
  | succ n ih =>
    intro acc
    exact ih (acc ++ [none])

/-- C9 counterexample: Many over Optional(Check 'z') on the non-empty stream
"a" never terminates — Optional peeks true and succeeds without consuming,
so no fuel makes the loop finish; Many(a).Parse does not terminate for every
parser a. -/
theorem c9_counterexample :
    ¬ ∃ n, (manyLoop (optionalP (checkP 'z' nodeNE : Parser Char Nat Nat
      (RVal Unit)) nodeNE) nodeNE n strA 0 0 []).isSome := by
  rintro ⟨n, h⟩
  rw [manyLoop_optional_no_finish n []] at h
  simp at h

end LightParser
